import Mathlib

/-!
Verification development for the hybrid retrieval/ranking engine of
`backend/langgraph/nodes/policy_retriever.py`.

The Python module is shallowly embedded: pure helper functions become Lean
functions, the module-level embedding cache becomes explicit state passing,
and the external collaborators (OpenAI embedding endpoint, the pgvector
store, and the profile hard-filter rule set, which lives in a module that is
not part of the analysed sources) are modelled as oracle parameters.
Floating-point arithmetic is modelled as exact arithmetic over a linear
ordered field `K` (instantiated at `ℚ` for executable checks and at `ℝ`
where `math.log` is involved).
-/

set_option maxRecDepth 8000

namespace PolicyRetriever

/-- ASCII whitespace as stripped by Python's `str.strip()` (Python also
strips a handful of rare Unicode space code points, which never occur in
this code base). -/
def isSpaceChar (c : Char) : Bool :=
  c = ' ' || c = '\t' || c = '\n' || c = '\r' || c = '\x0b' || c = '\x0c'

/-- Python `str.strip()`: drop leading and trailing whitespace. -/
def pyStrip (s : String) : String :=
  String.mk (((s.data.dropWhile isSpaceChar).reverse.dropWhile isSpaceChar).reverse)

/-- Characters matched by the regex class `[가-힣A-Za-z0-9]` used by both
tokenizers in `policy_retriever.py`: Hangul syllables U+AC00–U+D7A3, ASCII
letters and ASCII digits. -/
def isTokenChar (c : Char) : Bool :=
  (0xAC00 ≤ c.toNat && c.toNat ≤ 0xD7A3) ||
  (65 ≤ c.toNat && c.toNat ≤ 90) ||
  (97 ≤ c.toNat && c.toNat ≤ 122) ||
  (48 ≤ c.toNat && c.toNat ≤ 57)

/-- Worker for `findTokens`: walks the character list keeping the current
run of token characters (reversed) in `cur`, emitting a token at each
maximal run, exactly as `re.findall(r"[가-힣A-Za-z0-9]+", text)` does. -/
def findRuns : List Char → List Char → List String
  | [], cur => if cur.isEmpty then [] else [String.mk cur.reverse]
  | c :: cs, cur =>
    if isTokenChar c then findRuns cs (c :: cur)
    else if cur.isEmpty then findRuns cs []
    else String.mk cur.reverse :: findRuns cs []

/-- `re.findall(r"[가-힣A-Za-z0-9]+", text)`: the maximal runs of token
characters of `text`, in order. -/
def findTokens (s : String) : List String := findRuns s.data []

/-- Python `str.lower()` on the token alphabet: ASCII letters are
lowercased; Hangul syllables and digits are unchanged (as in CPython). -/
def lowerStr (s : String) : String := String.mk (s.data.map Char.toLower)

/-- The stop-word set of `extract_keywords` (policy_retriever.py lines
207–233), verbatim. -/
def stopTokens : List String :=
  ["그리고", "하지만", "근데", "혹시", "만약", "받을", "가능", "문의",
   "신청", "여부", "있나요", "해당", "사용자", "상태", "현재", "질문",
   "혜택", "지원", "정책", "제가", "나는", "저는", "내가", "궁금",
   "궁금해요"]

/-- The `for t in tokens` loop of `extract_keywords`: lowercase each token,
keep it when it has length ≥ 2, is not a stop word and was not seen before,
and stop as soon as `max_k` keywords have been collected. `seen` and `out`
are the loop accumulators (`out` reversed). -/
def keywordLoop (maxK : Nat) : List String → List String → List String → List String
  | [], _seen, out => out.reverse
  | t :: ts, seen, out =>
    let tl := lowerStr t
    if 2 ≤ tl.length && !(stopTokens.contains tl) && !(seen.contains tl) then
      if maxK ≤ out.length + 1 then (tl :: out).reverse
      else keywordLoop maxK ts (tl :: seen) (tl :: out)
    else keywordLoop maxK ts seen out

/-- `extract_keywords(text, max_k)` (policy_retriever.py lines 199–244):
token extraction, stop-word removal, order-preserving deduplication, capped
at `max_k` keywords; the empty string short-circuits to `[]`. -/
def extract_keywords (text : String) (maxK : Nat) : List String :=
  if text = "" then [] else keywordLoop maxK (findTokens text) [] []

/-- A context triple as the retriever reads it: only the `object` and
`code` fields are consumed (missing fields behave as the empty string,
matching `tri.get("object") or ""`). -/
structure Triple where
  object : String
  code : String
deriving DecidableEq, Repr

/-- A collection layer: `None` / non-dict layers carry no triples. -/
abbrev Layer := Option (List Triple)

/-- `_collect_layer_objects` (lines 449–467): the stripped, non-empty
`object` values of a layer's triples, in order. -/
def collectLayerObjects (layer : Layer) : List String :=
  match layer with
  | none => []
  | some tris => tris.filterMap (fun tri =>
      let obj := pyStrip tri.object
      if obj = "" then none else some obj)

/-- The deduplication loop of `_build_synthetic_query` (lines 501–508):
keep the first occurrence of each object, stopping once five have been
collected (`acc` holds the collected objects reversed). -/
def dedupObjectsLoop : List String → List String → List String
  | [], acc => acc.reverse
  | o :: os, acc =>
    let acc' := if acc.contains o then acc else o :: acc
    if 5 ≤ acc'.length then acc'.reverse else dedupObjectsLoop os acc'

/-- `_build_synthetic_query` (lines 470–520): if the trimmed raw query
yields keywords it is returned as-is; otherwise the synthetic query is the
stripped profile summary (when truthy), then the labelled deduplicated
L0-then-L1 object list, then the fixed trailing phrase, joined by single
spaces; if both pieces are missing the trimmed raw query is the fallback. -/
def buildSyntheticQuery (rawQuery : String) (profileSummary : Option String)
    (l0 l1 : Layer) : String :=
  let raw := pyStrip rawQuery
  let coreKws := extract_keywords raw 4
  if !coreKws.isEmpty then raw
  else
    let pieces0 : List String :=
      match profileSummary with
      | some s => if s = "" then [] else [pyStrip s]
      | none => []
    let objs := collectLayerObjects l0 ++ collectLayerObjects l1
    let uniqObjs := dedupObjectsLoop objs []
    let pieces1 : List String :=
      if uniqObjs.isEmpty then pieces0
      else pieces0 ++ ["최근 상황: " ++ String.intercalate ", " uniqObjs]
    if pieces1.isEmpty then raw
    else String.intercalate " " (pieces1 ++ ["관련 의료·복지 지원 정책"])

example : extract_keywords "hello" 4 = ["hello"] := by decide
example : extract_keywords "혹시" 4 = [] := by decide
example : buildSyntheticQuery "혹시" (some "65세, 서울") (some [⟨"당뇨", ""⟩]) (some [])
    = "65세, 서울 최근 상황: 당뇨 관련 의료·복지 지원 정책" := by decide

/-! ## The embedding cache (`_embed_text`, lines 121–186) -/

/-- `EMBEDDING_CACHE_SIZE` (line 84). -/
def EMBEDDING_CACHE_SIZE : Nat := 30

/-- The module-level embedding cache state: `_embedding_cache` as an
insertion-ordered association list (CPython dicts preserve insertion
order) and `_cache_order` as the FIFO queue. -/
structure EmbedCache where
  cache : List (String × List ℚ)
  order : List String
deriving DecidableEq, Repr

/-- The initial (empty) module state. -/
def emptyEmbedCache : EmbedCache := ⟨[], []⟩

/-- The zero vector `[0.0] * 1536`. -/
def zeroVec : List ℚ := List.replicate 1536 0

/-- The eviction block of `_embed_text` (lines 172–179): when the FIFO
queue exceeds `EMBEDDING_CACHE_SIZE`, pop the oldest key from the queue
and remove it from the dict (`_embedding_cache.pop(oldest_key, None)`). -/
def cacheEvict (st : EmbedCache) : EmbedCache :=
  if EMBEDDING_CACHE_SIZE < st.order.length then
    match st.order with
    | [] => ⟨st.cache, []⟩
    | oldest :: restOrder =>
      ⟨st.cache.eraseP (fun p => p.1 == oldest), restOrder⟩
  else st

/-- `_embed_text` (lines 121–186). The MD5 content hash is abstracted as
`hash` and the OpenAI embedding call as `provider`, where `provider t =
none` models the call raising an exception (which the function swallows,
returning the zero vector). Returns the produced vector together with the
updated cache state; exceptions never escape, which the Lean embedding
shows by being a total function into `List ℚ × EmbedCache`. -/
def embedText (hash : String → String) (provider : String → Option (List ℚ))
    (st : EmbedCache) (text : String) : List ℚ × EmbedCache :=
  let textToEmbed := pyStrip text
  if textToEmbed = "" then (zeroVec, st)
  else
    let cacheKey := hash textToEmbed
    match st.cache.lookup cacheKey with
    | some v => (v, st)
    | none =>
      match provider textToEmbed with
      | none => (zeroVec, st)
      | some embedding =>
        (embedding, cacheEvict ⟨st.cache ++ [(cacheKey, embedding)], st.order ++ [cacheKey]⟩)

/-- A sequence of `_embed_text` calls starting from the empty module
state, keeping only the final cache state. -/
def runEmbeds (hash : String → String) (provider : String → Option (List ℚ))
    (texts : List String) : EmbedCache :=
  texts.foldl (fun st t => (embedText hash provider st t).2) emptyEmbedCache

/-- Well-formedness of the cache state: the dict keys coincide with the
FIFO queue (in insertion order), the queue has no duplicates, and the
capacity bound holds. -/
structure CacheInv (st : EmbedCache) : Prop where
  keys_eq : st.cache.map Prod.fst = st.order
  nodup : st.order.Nodup
  size_le : st.order.length ≤ EMBEDDING_CACHE_SIZE

/-- An association-list lookup misses exactly when the key is absent from
the key column. -/
theorem lookup_eq_none_iff {β : Type} (l : List (String × β)) (k : String) :
    l.lookup k = none ↔ k ∉ l.map Prod.fst := by
  induction l with
  | nil => simp [List.lookup]
  | cons p t ih =>
    obtain ⟨a, b⟩ := p
    by_cases h : k = a
    · subst h; simp [List.lookup]
    · simp [List.lookup, beq_false_of_ne h, h, ih]

/-- The last `n` elements of a list. -/
def takeLast {α : Type} (n : Nat) (l : List α) : List α := l.drop (l.length - n)

theorem length_takeLast {α : Type} (n : Nat) (l : List α) :
    (takeLast n l).length = min n l.length := by
  simp [takeLast]; omega

theorem takeLast_sublist {α : Type} (n : Nat) (l : List α) :
    (takeLast n l).Sublist l := List.drop_sublist _ _

theorem takeLast_append_eq {α : Type} (n : Nat) (a b : List α) :
    takeLast n (takeLast n a ++ b) = takeLast n (a ++ b) := by
  have h1 : takeLast n a ++ b = (a ++ b).drop (a.length - n) := by
    rw [List.drop_append_eq_append_drop, Nat.sub_eq_zero_of_le (Nat.sub_le _ _),
      List.drop_zero]
    rfl
  rw [h1]
  simp only [takeLast, List.drop_drop, List.length_drop, List.length_append]
  congr 1
  omega

/-- Erasing the key at the head of an association list's key column drops
exactly that head. -/
theorem erase_head_key {β : Type} (l : List (String × β)) (x : String)
    (xs : List String) (h : l.map Prod.fst = x :: xs) :
    (l.eraseP (fun p => p.1 == x)).map Prod.fst = xs := by
  cases l with
  | nil => simp at h
  | cons a t =>
    simp only [List.map_cons, List.cons.injEq] at h
    obtain ⟨h1, h2⟩ := h
    simp [List.eraseP_cons, h1, h2]

theorem cacheEvict_inv (st : EmbedCache)
    (hkeys : st.cache.map Prod.fst = st.order) (hnd : st.order.Nodup)
    (hsz : st.order.length ≤ EMBEDDING_CACHE_SIZE + 1) :
    CacheInv (cacheEvict st) := by
  unfold cacheEvict
  split
  next h =>
    split
    next heq => rw [heq] at h; exact absurd h (by simp)
    next oldest restOrder heq =>
      refine ⟨erase_head_key _ _ _ (heq ▸ hkeys), ?_, ?_⟩
      · have := heq ▸ hnd
        exact (List.nodup_cons.1 this).2
      · rw [heq] at hsz
        simp at hsz ⊢
        omega
  next h => exact ⟨hkeys, hnd, by omega⟩

theorem cacheEvict_order (st : EmbedCache)
    (hsz : st.order.length ≤ EMBEDDING_CACHE_SIZE + 1) :
    (cacheEvict st).order = takeLast EMBEDDING_CACHE_SIZE st.order := by
  unfold cacheEvict
  split
  next h =>
    split
    next heq => rw [heq] at h; simp at h
    next oldest restOrder heq =>
      rw [heq] at h hsz
      simp only [List.length_cons] at h hsz
      have hlen : restOrder.length = EMBEDDING_CACHE_SIZE := by omega
      simp [takeLast, heq, hlen]
  next h =>
    have : st.order.length ≤ EMBEDDING_CACHE_SIZE := by omega
    simp [takeLast, Nat.sub_eq_zero_of_le this]

/-- One `_embed_text` call preserves cache well-formedness; in particular
the cache never grows beyond `EMBEDDING_CACHE_SIZE` entries. -/
theorem cacheInv_step (hash : String → String)
    (provider : String → Option (List ℚ)) (st : EmbedCache) (t : String)
    (h : CacheInv st) : CacheInv (embedText hash provider st t).2 := by
  unfold embedText
  by_cases he : pyStrip t = ""
  · simpa [he] using h
  · simp only [if_neg he]
    cases hl : st.cache.lookup (hash (pyStrip t)) with
    | some v => exact h
    | none =>
      cases hp : provider (pyStrip t) with
      | none => exact h
      | some emb =>
        have hk : hash (pyStrip t) ∉ st.order := by
          rw [← h.keys_eq]
          exact (lookup_eq_none_iff _ _).1 hl
        apply cacheEvict_inv
        · simp [h.keys_eq]
        · simp [List.nodup_append, h.nodup, hk]
        · have := h.size_le; simp; omega

/-- A fresh, successful `_embed_text` call turns the FIFO queue into the
last `EMBEDDING_CACHE_SIZE` keys of (queue ++ new key). -/
theorem embedText_miss_order (hash : String → String)
    (provider : String → Option (List ℚ)) (st : EmbedCache) (t : String)
    (hinv : CacheInv st) (he : pyStrip t ≠ "")
    (hl : st.cache.lookup (hash (pyStrip t)) = none)
    (hp : provider (pyStrip t) ≠ none) :
    (embedText hash provider st t).2.order
      = takeLast EMBEDDING_CACHE_SIZE (st.order ++ [hash (pyStrip t)]) := by
  unfold embedText
  simp only [if_neg he]
  cases hpv : provider (pyStrip t) with
  | none => exact absurd hpv hp
  | some emb =>
    rw [hl]
    have : (⟨st.cache ++ [(hash (pyStrip t), emb)],
        st.order ++ [hash (pyStrip t)]⟩ : EmbedCache).order.length
        ≤ EMBEDDING_CACHE_SIZE + 1 := by
      have := hinv.size_le; simp; omega
    simpa using cacheEvict_order _ this

/-- Folding `_embed_text` over any call sequence preserves cache
well-formedness. -/
theorem runFold_inv (hash : String → String)
    (provider : String → Option (List ℚ)) :
    ∀ (texts : List String) (st : EmbedCache), CacheInv st →
      CacheInv (texts.foldl (fun s t => (embedText hash provider s t).2) st)
  | [], _, h => h
  | t :: ts, st, h => by
    simpa using runFold_inv hash provider ts _ (cacheInv_step hash provider st t h)

/-- FIFO characterization: after a sequence of fresh, successful
`_embed_text` calls the queue holds exactly the last
`EMBEDDING_CACHE_SIZE` of the accumulated keys. -/
theorem runFold_order_char (hash : String → String)
    (provider : String → Option (List ℚ)) :
    ∀ (texts : List String) (st : EmbedCache), CacheInv st →
    (∀ t ∈ texts, pyStrip t ≠ "") →
    (∀ t ∈ texts, provider (pyStrip t) ≠ none) →
    (st.order ++ texts.map (fun t => hash (pyStrip t))).Nodup →
    (texts.foldl (fun s t => (embedText hash provider s t).2) st).order
      = takeLast EMBEDDING_CACHE_SIZE
          (st.order ++ texts.map (fun t => hash (pyStrip t)))
  | [], st, hinv, _, _, _ => by
    simp [takeLast, Nat.sub_eq_zero_of_le hinv.size_le]
  | t :: ts, st, hinv, hne, hpr, hnd => by
    have hkfresh : hash (pyStrip t) ∉ st.order := by
      intro hmem
      exact (List.nodup_append.1 hnd).2.2 hmem (by simp)
    have hl : st.cache.lookup (hash (pyStrip t)) = none := by
      rw [lookup_eq_none_iff, hinv.keys_eq]; exact hkfresh
    have hstep := embedText_miss_order hash provider st t hinv
      (hne t (by simp)) hl (hpr t (by simp))
    have hinv' := cacheInv_step hash provider st t hinv
    have hassoc : (st.order ++ [hash (pyStrip t)])
        ++ ts.map (fun u => hash (pyStrip u))
        = st.order ++ (t :: ts).map (fun u => hash (pyStrip u)) := by
      simp
    have hnd' : ((embedText hash provider st t).2.order
        ++ ts.map (fun u => hash (pyStrip u))).Nodup := by
      rw [hstep]
      exact List.Nodup.sublist
        ((takeLast_sublist _ _).append_right _) (hassoc ▸ hnd)
    have ih := runFold_order_char hash provider ts _ hinv'
      (fun u hu => hne u (by simp [hu])) (fun u hu => hpr u (by simp [hu])) hnd'
    rw [List.foldl_cons, ih, hstep, takeLast_append_eq, hassoc]

/-- C8 theorem, general form: (a) for every call sequence the cache holds
at most `EMBEDDING_CACHE_SIZE` entries; (b) after `EMBEDDING_CACHE_SIZE +
1` calls with pairwise-distinct keys, non-blank texts and a succeeding
provider, the first key has been evicted and every later key is present. -/
theorem embed_cache_capacity_fifo (hash : String → String)
    (provider : String → Option (List ℚ)) (t0 : String) (rest : List String)
    (hlen : (t0 :: rest : List String).length = EMBEDDING_CACHE_SIZE + 1)
    (hnd : ((t0 :: rest).map (fun t => hash (pyStrip t))).Nodup)
    (hne : ∀ t ∈ t0 :: rest, pyStrip t ≠ "")
    (hpr : ∀ t ∈ t0 :: rest, provider (pyStrip t) ≠ none) :
    (∀ ts : List String,
        (runEmbeds hash provider ts).cache.length ≤ EMBEDDING_CACHE_SIZE)
    ∧ (runEmbeds hash provider (t0 :: rest)).cache.lookup
        (hash (pyStrip t0)) = none
    ∧ ∀ u ∈ rest, ((runEmbeds hash provider (t0 :: rest)).cache.lookup
        (hash (pyStrip u))).isSome := by
  have hinv0 : CacheInv emptyEmbedCache := ⟨rfl, List.nodup_nil, by decide⟩
  have hfinv : CacheInv (runEmbeds hash provider (t0 :: rest)) :=
    runFold_inv hash provider _ _ hinv0
  have horder : (runEmbeds hash provider (t0 :: rest)).order
      = rest.map (fun t => hash (pyStrip t)) := by
    have hnd0 : (emptyEmbedCache.order
        ++ (t0 :: rest).map (fun t => hash (pyStrip t))).Nodup := by
      show (([] : List String) ++ _).Nodup
      simpa using hnd
    have hchar := runFold_order_char hash provider (t0 :: rest) emptyEmbedCache
      hinv0 hne hpr hnd0
    have hrl : rest.length = EMBEDDING_CACHE_SIZE := by simpa using hlen
    simp only [emptyEmbedCache, List.nil_append, List.map_cons] at hchar
    unfold runEmbeds emptyEmbedCache
    rw [hchar]
    simp [takeLast, hrl]
  refine ⟨?_, ?_, ?_⟩
  · intro ts
    have h : CacheInv (runEmbeds hash provider ts) :=
      runFold_inv hash provider _ _ hinv0
    have hc : (runEmbeds hash provider ts).cache.length
        = (runEmbeds hash provider ts).order.length := by
      rw [← h.keys_eq, List.length_map]
    rw [hc]
    exact h.size_le
  · rw [lookup_eq_none_iff, hfinv.keys_eq, horder]
    exact (List.nodup_cons.1 (by simpa using hnd)).1
  · intro u hu
    have hmem : hash (pyStrip u)
        ∈ (runEmbeds hash provider (t0 :: rest)).cache.map Prod.fst := by
      rw [hfinv.keys_eq, horder]
      exact List.mem_map_of_mem _ hu
    have hnn : (runEmbeds hash provider (t0 :: rest)).cache.lookup
        (hash (pyStrip u)) ≠ none := by
      intro hno
      exact (lookup_eq_none_iff _ _).1 hno hmem
    exact Option.ne_none_iff_isSome.1 hnn

/-- Thirty pairwise-distinct follow-up keys for the C8 witness. -/
def fifoRest : List String :=
  ["a01", "a02", "a03", "a04", "a05", "a06", "a07", "a08", "a09", "a10", "a11", "a12", "a13", "a14", "a15", "a16", "a17", "a18", "a19", "a20", "a21", "a22", "a23", "a24", "a25", "a26", "a27", "a28", "a29", "a30"]

/-- Witness for the C8 theorem: a concrete run over 31 distinct keys. -/
theorem embed_cache_capacity_fifo_witness :
    (∀ ts : List String,
        (runEmbeds id (fun _ => some []) ts).cache.length ≤ EMBEDDING_CACHE_SIZE)
    ∧ (runEmbeds id (fun _ => some []) ("a00" :: fifoRest)).cache.lookup
        (id (pyStrip "a00")) = none
    ∧ ∀ u ∈ fifoRest,
        ((runEmbeds id (fun _ => some []) ("a00" :: fifoRest)).cache.lookup
          (id (pyStrip u))).isSome :=
  embed_cache_capacity_fifo id (fun _ => some []) "a00" fifoRest
    (by decide) (by decide) (by decide) (by decide)

/-- C9: `_embed_text` never propagates an error to its caller (the Lean
embedding is a total function): blank input maps to the 1536-dimensional
zero vector with the module cache untouched and without consulting the
provider (the provider argument is arbitrary and unused), and a provider
failure on an uncached key returns the zero vector leaving the cache
without an entry for that key. -/
theorem embed_text_error_handling (hash : String → String)
    (provider : String → Option (List ℚ)) (st : EmbedCache) (text : String) :
    zeroVec.length = 1536
    ∧ (pyStrip text = "" → embedText hash provider st text = (zeroVec, st))
    ∧ (pyStrip text ≠ "" → st.cache.lookup (hash (pyStrip text)) = none →
        provider (pyStrip text) = none →
        embedText hash provider st text = (zeroVec, st)) := by
  refine ⟨by simp [zeroVec], ?_, ?_⟩
  · intro h
    simp [embedText, h]
  · intro h hl hp
    simp [embedText, h, hl, hp]

/-- Witness for the C9 theorem at concrete inputs. -/
theorem embed_text_error_handling_witness :
    embedText id (fun _ => none) emptyEmbedCache " " = (zeroVec, emptyEmbedCache)
    ∧ embedText id (fun _ => none) emptyEmbedCache "abc" = (zeroVec, emptyEmbedCache) :=
  ⟨(embed_text_error_handling id (fun _ => none) emptyEmbedCache " ").2.1 (by decide),
   (embed_text_error_handling id (fun _ => none) emptyEmbedCache "abc").2.2
     (by decide) (by decide) rfl⟩

/-- C4 counterexample: the raw query `"hello"` does yield an extractable
keyword (the tokenizer accepts ASCII words and `"hello"` is not a stop
word), so `_build_synthetic_query` returns `"hello"` unchanged instead of
the synthetic profile/context query the claim expects. -/
theorem synthetic_query_hello_counterexample :
    buildSyntheticQuery "hello" (some "65세, 서울") (some [⟨"당뇨", ""⟩]) (some [])
      = "hello"
    ∧ buildSyntheticQuery "hello" (some "65세, 서울") (some [⟨"당뇨", ""⟩]) (some [])
      ≠ "65세, 서울 최근 상황: 당뇨 관련 의료·복지 지원 정책" := by
  exact ⟨by decide, by decide⟩

/-- C4 amended: whenever the trimmed raw query yields keywords it is
returned (trimmed) unchanged; and for a genuinely keyword-free raw query
(such as the stop word `"혹시"`) with profile summary `"65세, 서울"` and a
single L0 triple with object `"당뇨"` (L1 empty), the synthetic query is
exactly `"65세, 서울 최근 상황: 당뇨 관련 의료·복지 지원 정책"`. -/
theorem synthetic_query_amended (raw : String) (ps : Option String)
    (l0 l1 : Layer) (h : extract_keywords (pyStrip raw) 4 ≠ []) :
    buildSyntheticQuery raw ps l0 l1 = pyStrip raw
    ∧ buildSyntheticQuery "혹시" (some "65세, 서울") (some [⟨"당뇨", ""⟩]) (some [])
      = "65세, 서울 최근 상황: 당뇨 관련 의료·복지 지원 정책" := by
  constructor
  · have hb : (extract_keywords (pyStrip raw) 4).isEmpty = false := by
      cases hxs : extract_keywords (pyStrip raw) 4 with
      | nil => exact absurd hxs h
      | cons a l => rfl
    unfold buildSyntheticQuery
    simp [hb]
  · decide

/-- Witness for the C4 amended theorem at a concrete keyword-bearing query. -/
theorem synthetic_query_amended_witness :
    buildSyntheticQuery "hello 주민" none none none = pyStrip "hello 주민"
    ∧ buildSyntheticQuery "혹시" (some "65세, 서울") (some [⟨"당뇨", ""⟩]) (some [])
      = "65세, 서울 최근 상황: 당뇨 관련 의료·복지 지원 정책" :=
  synthetic_query_amended "hello 주민" none none none (by decide)

/-! ## Candidate rows, snippets, and the retrieval pipeline -/

/-- A raw row of the pgvector result set (lines 579–621): columns `d.id,
d.title, d.requirements, d.benefits, d.region, d.url` and the computed
`similarity`; `none` models SQL NULL (or a non-string value for the text
columns). The document id is kept as a string. -/
structure Row (K : Type) where
  doc_id : String
  title : Option String
  requirements : Option String
  benefits : Option String
  region : Option String
  url : Option String
  similarity : Option K
deriving DecidableEq, Repr

/-- A `rag_snippets` entry (lines 668–687) together with the `bm25_score`
field the rerank adds later; dict keys that may be absent are `Option`s. -/
structure Snippet (K : Type) where
  doc_id : String
  title : Option String
  source : Option String
  snippet : String
  similarity : Option K
  score : Option K
  region : Option String
  url : Option String
  requirements : Option String
  benefits : Option String
  bm25_score : Option K
deriving DecidableEq, Repr

/-- Python truthiness of an optional string: `None` and `""` are falsy;
the result keeps the string only when truthy. -/
def optNonEmpty : Option String → Option String
  | some s => if s = "" then none else some s
  | none => none

/-- A processed result dict (lines 634–660): stripped text fields, the
similarity, and the pre-computed snippet text. -/
structure ProcRow (K : Type) where
  doc_id : String
  title : Option String
  requirements : Option String
  benefits : Option String
  region : Option String
  url : Option String
  similarity : Option K
  snippet : String
deriving DecidableEq, Repr

/-- The snippet-text construction (lines 642–647): the truthy sections
labelled `[신청 요건]` and `[지원 내용]`, joined by blank lines, stripped. -/
def rowSnippetText (req ben : Option String) : String :=
  let sections : List String :=
    (match optNonEmpty req with
     | some s => ["[신청 요건]\n" ++ s]
     | none => [])
    ++ (match optNonEmpty ben with
        | some s => ["[지원 내용]\n" ++ s]
        | none => [])
  pyStrip (String.intercalate "\n\n" sections)

/-- Row processing (lines 634–660): `float(...)` NULL-checks, stripping
of the text columns, and the snippet text. -/
def processRow {K : Type} (r : Row K) : ProcRow K :=
  let requirements := r.requirements.map pyStrip
  let benefits := r.benefits.map pyStrip
  { doc_id := r.doc_id
    title := r.title.map pyStrip
    requirements := requirements
    benefits := benefits
    region := r.region.map pyStrip
    url := r.url.map pyStrip
    similarity := r.similarity
    snippet := rowSnippetText requirements benefits }

/-- A structurally recursive stable sort (insertion sort), modelling
CPython's `list.sort` (timsort): both are stable, and a stable sort's
output is uniquely determined by the comparator, so the two agree on
every input on which CPython's comparisons do not raise. -/
def insertSorted {A : Type} (le : A → A → Bool) (x : A) : List A → List A
  | [] => [x]
  | y :: ys => if le y x then y :: insertSorted le x ys else x :: y :: ys

/-- `list.sort(key=...)` as a fold of stable insertions. -/
def stableSort {A : Type} (le : A → A → Bool) (xs : List A) : List A :=
  xs.foldl (fun acc x => insertSorted le x acc) []

/-- The comparator of `results.sort(key=lambda x: (x["similarity"] is not
None, x["similarity"]), reverse=True)` (lines 663–665): descending in the
lexicographic key. A `None` similarity is given key value 0; CPython
raises `TypeError` when two `None` similarities are compared (that run is
aborted by the `except` in the node), so every result stated here either
avoids that case or does not depend on this comparator. -/
def simDescLE {K : Type} [LinearOrderedField K] (a b : ProcRow K) : Bool :=
  (!b.similarity.isSome && a.similarity.isSome)
  || (b.similarity.isSome == a.similarity.isSome
      && decide (b.similarity.getD 0 ≤ a.similarity.getD 0))

/-- One `rag_snippets` entry (lines 668–687): the snippet text falls back
to benefits, then requirements, then `""`; `score` starts out equal to
the vector similarity; region/url/requirements/benefits keys are present
only when truthy. -/
def mkSnippetEntry {K : Type} (r : ProcRow K) : Snippet K :=
  { doc_id := r.doc_id
    title := r.title
    source := some ((optNonEmpty r.region).getD "policy_db")
    snippet :=
      if r.snippet = "" then
        ((optNonEmpty r.benefits).orElse (fun _ => optNonEmpty r.requirements)).getD ""
      else r.snippet
    similarity := r.similarity
    score := r.similarity
    region := optNonEmpty r.region
    url := optNonEmpty r.url
    requirements := optNonEmpty r.requirements
    benefits := optNonEmpty r.benefits
    bm25_score := none }

/-- Result-set processing of `_hybrid_search_documents` (lines 634–687):
process the rows, sort by descending similarity (`None` last, stable),
and build the snippet entries. -/
def mkSnippets {K : Type} [LinearOrderedField K] (rows : List (Row K)) :
    List (Snippet K) :=
  (stableSort simDescLE (rows.map processRow)).map mkSnippetEntry

/-- Python `str.split()`: maximal runs of non-whitespace characters. -/
def splitWsAux : List Char → List Char → List String
  | [], cur => if cur.isEmpty then [] else [String.mk cur.reverse]
  | c :: cs, cur =>
    if isSpaceChar c then
      if cur.isEmpty then splitWsAux cs []
      else String.mk cur.reverse :: splitWsAux cs []
    else splitWsAux cs (c :: cur)

def pySplit (s : String) : List String := splitWsAux s.data []

/-- `tok.endswith(("구", "군", "동", "시"))`: each suffix is one Hangul
syllable, so this is a test on the final character. -/
def regionSuffixOk (tok : String) : Bool :=
  match tok.data.reverse with
  | [] => false
  | c :: _ => c = '구' || c = '군' || c = '동' || c = '시'

/-- The scan of `_sanitize_region` (lines 433–441): walk the whitespace
tokens from the right, skip blank tokens, and return the first one ending
in a recognized administrative suffix. -/
def findRegionTok : List String → Option String
  | [] => none
  | tok :: rest =>
    let t := pyStrip tok
    if t = "" then findRegionTok rest
    else if regionSuffixOk t then some t
    else findRegionTok rest

/-- `_sanitize_region` (lines 412–443) on an already-unwrapped value (the
`{"value": ...}` dict unwrap of lines 422–426 is absorbed by the caller
passing the inner value). -/
def sanitizeRegion (v : Option String) : Option String :=
  match v with
  | none => none
  | some s =>
    let regionStr := pyStrip s
    if regionStr = "" then none
    else
      match findRegionTok (pySplit regionStr).reverse with
      | some tok => some tok
      | none => some regionStr

/-- The profile fields the retriever itself reads (lines 547–549); the
externally supplied eligibility rules receive the whole profile and are
abstracted as a predicate. -/
structure Profile where
  residency_sgg_code : Option String
  region_gu : Option String
deriving DecidableEq, Repr

/-- `_hybrid_search_documents` (lines 526–693). The embedding call and
the pgvector query are oracles: `embed` maps the stripped query text to a
vector and `store` maps (query vector, optional region hard filter,
LIMIT) to the rows the database returns; neither is consulted before the
blank-query early return of line 539. -/
def hybridSearchDocuments {K : Type} [LinearOrderedField K]
    (embed : String → List K)
    (store : List K → Option String → Nat → List (Row K))
    (queryText : String) (mergedProfile : Option Profile) (topK : Nat) :
    List (Snippet K) × List String :=
  let q := pyStrip queryText
  if q = "" then ([], [])
  else
    let debugKeywords := extract_keywords q 8
    let regionFilter :=
      match mergedProfile with
      | some p =>
        sanitizeRegion (p.residency_sgg_code.orElse (fun _ => p.region_gu))
      | none => none
    let qvec := embed q
    let rows := store qvec regionFilter topK
    (mkSnippets rows, debugKeywords)

/-! ## BM25 re-ranking, similarity floor, and the node pipeline -/

/-- `_tokenize_for_bm25` (lines 265–269). -/
def tokenizeForBM25 (text : String) : List String :=
  (findTokens text).map lowerStr

/-- `_add_layer_terms` (lines 272–303): for each triple with a truthy
`object` or `code`, the lowercase tokens of `object + " " + code`, each
repeated `max(weight, 1)` times. -/
def addLayerTerms (weight : Nat) (layer : Layer) : List String :=
  match layer with
  | none => []
  | some tris => tris.flatMap (fun tri =>
      let obj := pyStrip tri.object
      let code := pyStrip tri.code
      if obj = "" && code = "" then []
      else (tokenizeForBM25 (obj ++ " " ++ code)).flatMap
        (fun tok => List.replicate (max weight 1) tok))

/-- `_build_bm25_terms_from_layers` (lines 306–328) with the layer
weights `L0 = 3, L1 = 2, L2 = 1` (`LAYER_WEIGHTS`, lines 69–73). -/
def buildBM25Terms (l0 l1 l2 : Layer) : List String :=
  addLayerTerms 3 l0 ++ addLayerTerms 2 l1 ++ addLayerTerms 1 l2

/-- The BM25 document text of a candidate (lines 344–350): `title`,
`requirements` and `benefits` joined by single spaces, tokenized. -/
def docBM25Tokens {K : Type} (d : Snippet K) : List String :=
  tokenizeForBM25
    ((d.title.getD "") ++ " " ++ (d.requirements.getD "") ++ " "
      ++ (d.benefits.getD ""))

/-- `dl = len(tokens) or 1` (line 352). -/
def docLenOf (tokens : List String) : Nat :=
  if tokens.length = 0 then 1 else tokens.length

/-- The `term_doc_freq` statistic (lines 342–359). The Python double loop
bumps the counter of a term once per document containing it *per
occurrence of the term in the query multiset*, so the final value is the
sum over documents of the term's query multiplicity — `n_qi` can
therefore exceed the number of documents for a repeated term. -/
def termDocFreq (queryTerms : List String) (docTokens : List (List String))
    (t : String) : Nat :=
  (docTokens.map (fun ts => if ts.contains t then queryTerms.count t else 0)).sum

/-- One BM25 term contribution (lines 381–387): `idf * freq*(k1+1) /
(freq + k1*(1 - b + b*dl/avgdl))` with `k1 = 1.5`, `b = 0.75`,
`idf = lg((N - n_qi + 0.5)/(n_qi + 0.5) + 1)`; `lg` abstracts `math.log`
and is instantiated with `Real.log` below. The subtraction `N - n_qi` is
over the field, as in Python int arithmetic. -/
def bm25TermScore {K : Type} [LinearOrderedField K] (lg : K → K)
    (N nqi : Nat) (dl : Nat) (avgdl : K) (freq : Nat) : K :=
  let k1 : K := 3 / 2
  let b : K := 3 / 4
  let idf := lg (((N : K) - (nqi : K) + 1 / 2) / ((nqi : K) + 1 / 2) + 1)
  let denom := (freq : K) + k1 * (1 - b + b * (dl : K) / avgdl)
  idf * ((freq : K) * (k1 + 1)) / denom

/-- The per-document scoring loop (lines 369–388): the sum of term
contributions over the query-term multiset (one summand per occurrence),
skipping terms with zero document frequency or zero in-document
frequency. The in-document frequency of a query term is its count in the
document's token list (the `tf` dict of lines 370–373). -/
def bm25DocScore {K : Type} [LinearOrderedField K] (lg : K → K) (N : Nat)
    (df : String → Nat) (queryTerms : List String) (tokens : List String)
    (dl : Nat) (avgdl : K) : K :=
  (queryTerms.map (fun term =>
    let nqi := df term
    if nqi = 0 then 0
    else
      let freq := tokens.count term
      if freq = 0 then 0
      else bm25TermScore lg N nqi dl avgdl freq)).sum

/-- `max(bm25_scores) if bm25_scores else 0.0` (line 390). -/
def maxBM25 {K : Type} [LinearOrderedField K] : List K → K
  | [] => 0
  | x :: xs => xs.foldl max x

/-- `_apply_bm25_rerank` (lines 331–406) as a function returning the
updated candidate list (the Python code mutates `docs` in place): BM25
scores per document, normalization by the maximum (0 when the maximum is
not positive), and the hybrid fusion
`(1 - w) * similarity + w * bm25_norm` written into `score`, with the raw
BM25 total written into `bm25_score`. `w` is the module constant
`BM25_WEIGHT`. The `bm25_scores` list of lines 339–388 (per-document
tokens, capped lengths, mean document length, one BM25 total per
document) is split out as `bm25ScoresList`. -/
def bm25ScoresList {K : Type} [LinearOrderedField K] (lg : K → K)
    (docs : List (Snippet K)) (queryTerms : List String) : List K :=
  let docTokens := docs.map docBM25Tokens
  let docLens := docTokens.map docLenOf
  (docTokens.zip docLens).map
    (fun p => bm25DocScore lg docs.length (termDocFreq queryTerms docTokens)
      queryTerms p.1 p.2 (((docLens.sum : Nat) : K) / (docs.length : K)))

/-- `_apply_bm25_rerank` (lines 331–406) as a function returning the
updated candidate list (the Python code mutates `docs` in place):
normalization of the BM25 totals by their maximum (0 when the maximum is
not positive) and the hybrid fusion written into each candidate. -/
def applyBM25Rerank {K : Type} [LinearOrderedField K] (lg : K → K) (w : K)
    (docs : List (Snippet K)) (queryTerms : List String) :
    List (Snippet K) :=
  if docs.isEmpty || queryTerms.isEmpty then docs
  else
    let bm25s := bm25ScoresList lg docs queryTerms
    let maxB := maxBM25 bm25s
    (docs.zip bm25s).map (fun p =>
      let sim := p.1.similarity.getD 0
      let bm25Norm := if 0 < maxB then p.2 / maxB else 0
      { p.1 with
          bm25_score := some p.2
          score := some ((1 - w) * sim + w * bm25Norm) })

/-- `_get_sim` (lines 829–834). -/
def getSim {K : Type} (d : Snippet K) : Option K := d.similarity

/-- The similarity soft cutoff (lines 836–846): drop candidates whose
similarity (`None` counts as 0.0 via `_get_sim(d) or 0.0`) is below
`floor`, but only when at least `minAfter` candidates survive; otherwise,
or when no candidate carries a similarity at all, keep the list
unchanged. `floor` and `minAfter` are `SIMILARITY_FLOOR` and
`MIN_CANDIDATES_AFTER_FLOOR`. -/
def applyFloorStage {K : Type} [LinearOrderedField K] (floor : K)
    (minAfter : Nat) (docs : List (Snippet K)) : List (Snippet K) :=
  let sims := docs.filterMap getSim
  if sims.isEmpty then docs
  else
    let filteredBySim := docs.filter (fun d => decide (floor ≤ (getSim d).getD 0))
    if minAfter ≤ filteredBySim.length then filteredBySim else docs

/-- The final hybrid-score comparator (lines 858–871): ascending in the
key `(score is None, -(score or 0.0))`, i.e. all non-`None` scores first,
in descending order, stably. -/
def scoreSortLE {K : Type} [LinearOrderedField K] (a b : Snippet K) : Bool :=
  (!a.score.isNone && b.score.isNone)
  || (a.score.isNone == b.score.isNone
      && decide (-(a.score.getD 0) ≤ -(b.score.getD 0)))

/-- The router information the node reads: `none` models a missing or
falsy `state["router"]`, `some none` a router dict without a `use_rag`
key, `some (some b)` a router with `use_rag = b`. -/
abbrev Router := Option (Option Bool)

/-- The RAG trigger keywords of `_decide_use_rag` (line 713). -/
def ragKeywords : List String :=
  ["자격", "지원", "혜택", "대상", "요건", "급여", "본인부담"]

/-- Substring occurrence, as Python's `k in text`. -/
def subOccurs (need : List Char) : List Char → Bool
  | [] => need.isEmpty
  | c :: cs => need.isPrefixOf (c :: cs) || subOccurs need cs

/-- `_decide_use_rag` (lines 699–717). -/
def decideUseRag (router : Router) (queryText : String) : Bool :=
  match router with
  | none => true
  | some (some b) => b
  | some none =>
    let text := lowerStr queryText
    ragKeywords.any (fun k => subOccurs k.data text.data)

/-- Modelled from the spec: `filter_candidates_by_profile`
(`app.langgraph.utils.retrieval_filters`) is not among the analysed
sources. Spec §4.5 specifies `filter(candidates, profile) ->
candidates'` with `candidates' ⊆ candidates`, applying externally
supplied exclusion rules; it is modelled as `List.filter` with the
external rule set abstracted as the predicate `eligible`. -/
def filterCandidatesByProfile {K : Type}
    (eligible : Profile → Snippet K → Bool) (p : Profile)
    (docs : List (Snippet K)) : List (Snippet K) :=
  docs.filter (eligible p)

/-- The conversation-persist notice appended at lines 885–893; its dict
has only `doc_id`, `title`, `snippet` and `score` keys. -/
def persistSnippet {K : Type} [LinearOrderedField K] : Snippet K :=
  { doc_id := "system:conversation_persist"
    title := some "대화 저장 안내"
    source := none
    snippet := "대화를 종료하면 저장 파이프라인이 자동 실행되어 대화 내용이 보관됩니다."
    similarity := none
    score := some 1
    region := none
    url := none
    requirements := none
    benefits := none
    bm25_score := none }

/-- `refers_to_save` (lines 883–884). -/
def refersToSave (queryText : String) : Bool :=
  ["저장", "보관", "기록"].any (fun k => subOccurs k.data queryText.data)

/-- The tunable retriever parameters (lines 62–66); the environment
defaults are `RAW_TOP_K = 8`, `CONTEXT_TOP_K = 5`, `SIMILARITY_FLOOR =
0.3`, `MIN_CANDIDATES_AFTER_FLOOR = 5`, `BM25_WEIGHT = 0.2`
(`defaultConfig`). -/
structure RetrieverConfig (K : Type) where
  RAW_TOP_K : Nat
  CONTEXT_TOP_K : Nat
  SIMILARITY_FLOOR : K
  MIN_CANDIDATES_AFTER_FLOOR : Nat
  BM25_WEIGHT : K
deriving Repr

/-- The environment-default configuration. -/
def defaultConfig : RetrieverConfig ℚ := ⟨8, 5, mkRat 3 10, 5, mkRat 1 5⟩

/-- The slice of the LangGraph `state` that `policy_retriever_node` reads
on the path computing `state["rag_snippets"]`. -/
structure NodeState where
  user_input : String
  router : Router
  merged_profile : Option Profile
  profile_summary_text : Option String
  collection_L0 : Layer
  collection_L1 : Layer
  collection_L2 : Layer
  end_session : Bool

/-- The floor / BM25 / sort / truncate block of `policy_retriever_node`
(lines 827–879), applied to the candidates surviving the profile hard
filter. -/
def rankAndTruncate {K : Type} [LinearOrderedField K]
    (cfg : RetrieverConfig K) (lg : K → K) (bm25Terms : List String)
    (ragDocs1 : List (Snippet K)) : List (Snippet K) :=
  if ragDocs1.isEmpty then ragDocs1
  else
    let afterFloor := applyFloorStage cfg.SIMILARITY_FLOOR
      cfg.MIN_CANDIDATES_AFTER_FLOOR ragDocs1
    let reranked :=
      if bm25Terms.isEmpty then afterFloor
      else applyBM25Rerank lg cfg.BM25_WEIGHT afterFloor bm25Terms
    let sorted := stableSort scoreSortLE reranked
    if cfg.CONTEXT_TOP_K < sorted.length then sorted.take cfg.CONTEXT_TOP_K
    else sorted

/-- Lines 788–815: the RAG decision, synthetic-query construction and
hybrid search; a disabled router or blank query yields no candidates. -/
def searchStage {K : Type} [LinearOrderedField K] (cfg : RetrieverConfig K)
    (embed : String → List K)
    (store : List K → Option String → Nat → List (Row K))
    (st : NodeState) : List (Snippet K) :=
  if decideUseRag st.router st.user_input
      && (pyStrip st.user_input != "") then
    (hybridSearchDocuments embed store
      (buildSyntheticQuery st.user_input st.profile_summary_text
        st.collection_L0 st.collection_L1)
      st.merged_profile cfg.RAW_TOP_K).1
  else []

/-- Lines 817–822: the profile-based hard filter, applied only when a
profile is present and candidates exist. -/
def profileFilterStage {K : Type}
    (eligible : Profile → Snippet K → Bool) (profile : Option Profile)
    (docs : List (Snippet K)) : List (Snippet K) :=
  match profile with
  | some p =>
    if docs.isEmpty then docs else filterCandidatesByProfile eligible p docs
  | none => docs

/-- `policy_retriever_node` (lines 723–929), restricted to its
computation of `state["rag_snippets"]` (also exposed as
`retrieval.rag_snippets` and `context.documents`): synthetic-query
construction, hybrid search, profile hard filter, similarity floor, BM25
re-ranking, hybrid-score sort, `CONTEXT_TOP_K` truncation, and the
conversation-persist snippet. Oracles: `embed`/`store` as in
`hybridSearchDocuments`, `eligible` as in `filterCandidatesByProfile`,
`lg` for `math.log`; the `try/except` around the search maps a raised
exception to `[]`, a case subsumed by quantifying over the store. -/
def ragSnippetsOf {K : Type} [LinearOrderedField K]
    (cfg : RetrieverConfig K) (embed : String → List K)
    (store : List K → Option String → Nat → List (Row K))
    (eligible : Profile → Snippet K → Bool) (lg : K → K)
    (st : NodeState) : List (Snippet K) :=
  let ragDocs0 := searchStage cfg embed store st
  let ragDocs1 := profileFilterStage eligible st.merged_profile ragDocs0
  let bm25Terms := buildBM25Terms st.collection_L0 st.collection_L1
    st.collection_L2
  let ragDocs2 := rankAndTruncate cfg lg bm25Terms ragDocs1
  if st.end_session || refersToSave st.user_input then
    ragDocs2 ++ [persistSnippet]
  else ragDocs2

/-! ## Claim theorems: floor stage, context cap, blank query -/

/-- C1: the similarity-floor stage of `policy_retriever_node` either
leaves the candidate list unchanged or replaces it with the sub-list of
candidates at or above `SIMILARITY_FLOOR` while retaining at least
`MIN_CANDIDATES_AFTER_FLOOR` members; in every case it never leaves
fewer than `min (pre-floor count) MIN_CANDIDATES_AFTER_FLOOR`
candidates. -/
theorem floor_stage_minimum_guarantee {K : Type} [LinearOrderedField K]
    (floor : K) (minAfter : Nat) (docs : List (Snippet K)) :
    min docs.length minAfter ≤ (applyFloorStage floor minAfter docs).length
    ∧ (applyFloorStage floor minAfter docs = docs
       ∨ (applyFloorStage floor minAfter docs
            = docs.filter (fun d => decide (floor ≤ (getSim d).getD 0))
          ∧ minAfter ≤ (applyFloorStage floor minAfter docs).length)) := by
  simp only [applyFloorStage]
  split
  next => exact ⟨Nat.min_le_left _ _, Or.inl rfl⟩
  next =>
    split
    next h2 => exact ⟨le_trans (Nat.min_le_right _ _) h2, Or.inr ⟨rfl, h2⟩⟩
    next => exact ⟨Nat.min_le_left _ _, Or.inl rfl⟩

/-- The truncation step of lines 873–879 never returns more than `topK`
elements. -/
theorem length_truncate_le {A : Type} (topK : Nat) (l : List A) :
    (if topK < l.length then l.take topK else l).length ≤ topK := by
  split
  next h => simp [List.length_take]
  next h => omega

theorem length_rankAndTruncate_le {K : Type} [LinearOrderedField K]
    (cfg : RetrieverConfig K) (lg : K → K) (bm25Terms : List String)
    (ragDocs1 : List (Snippet K)) :
    (rankAndTruncate cfg lg bm25Terms ragDocs1).length ≤ cfg.CONTEXT_TOP_K := by
  simp only [rankAndTruncate]
  split
  next h => simp [List.isEmpty_iff.1 h]
  next h => exact length_truncate_le _ _

/-- C2 amended: the final `rag_snippets` list of `policy_retriever_node`
has length at most `CONTEXT_TOP_K + 1`, and at most `CONTEXT_TOP_K`
whenever the conversation-persist notice is not appended (the session is
not ending and the query does not mention a save keyword); the `+ 1`
slack is exactly the persist snippet appended after the truncation. -/
theorem rag_snippets_length_cap {K : Type} [LinearOrderedField K]
    (cfg : RetrieverConfig K) (embed : String → List K)
    (store : List K → Option String → Nat → List (Row K))
    (eligible : Profile → Snippet K → Bool) (lg : K → K) (st : NodeState) :
    (ragSnippetsOf cfg embed store eligible lg st).length
      ≤ cfg.CONTEXT_TOP_K + 1
    ∧ (st.end_session = false → refersToSave st.user_input = false →
        (ragSnippetsOf cfg embed store eligible lg st).length
          ≤ cfg.CONTEXT_TOP_K) := by
  constructor
  · simp only [ragSnippetsOf]
    split
    next =>
      rw [List.length_append, List.length_singleton]
      exact Nat.add_le_add_right (length_rankAndTruncate_le _ _ _ _) 1
    next =>
      exact le_trans (length_rankAndTruncate_le _ _ _ _) (Nat.le_succ _)
  · intro h1 h2
    simp only [ragSnippetsOf, h1, h2, Bool.or_self, if_false]
    exact length_rankAndTruncate_le cfg lg _ _

/-- Five rows with distinct similarities well above the floor. -/
def rowsC2 : List (Row ℚ) :=
  [⟨"1", some "정책 하나", none, none, none, none, some (mkRat 9 10)⟩,
   ⟨"2", some "정책 둘", none, none, none, none, some (mkRat 8 10)⟩,
   ⟨"3", some "정책 셋", none, none, none, none, some (mkRat 7 10)⟩,
   ⟨"4", some "정책 넷", none, none, none, none, some (mkRat 6 10)⟩,
   ⟨"5", some "정책 다섯", none, none, none, none, some (mkRat 5 10)⟩]

/-- A state with RAG enabled, no profile, empty context layers, and a
session that is ending. -/
def stateC2 : NodeState :=
  { user_input := "무엇"
    router := some (some true)
    merged_profile := none
    profile_summary_text := none
    collection_L0 := none
    collection_L1 := none
    collection_L2 := none
    end_session := true }

/-- C2 counterexample: with five candidates surviving the whole pipeline
and `end_session` set, the node appends the conversation-persist snippet
*after* the `CONTEXT_TOP_K` truncation and returns `CONTEXT_TOP_K + 1 =
6` snippets, so the final list is not bounded by `CONTEXT_TOP_K`. -/
theorem rag_snippets_length_counterexample :
    (ragSnippetsOf defaultConfig (fun _ => []) (fun _ _ _ => rowsC2)
        (fun _ _ => true) (fun _ => 0) stateC2).length
      = defaultConfig.CONTEXT_TOP_K + 1
    ∧ ¬ (ragSnippetsOf defaultConfig (fun _ => []) (fun _ _ _ => rowsC2)
        (fun _ _ => true) (fun _ => 0) stateC2).length
      ≤ defaultConfig.CONTEXT_TOP_K := by
  exact ⟨by decide, by decide⟩

/-- A state identical to `stateC2` except that the session is not
ending. -/
def stateC2quiet : NodeState :=
  { user_input := "무엇"
    router := some (some true)
    merged_profile := none
    profile_summary_text := none
    collection_L0 := none
    collection_L1 := none
    collection_L2 := none
    end_session := false }

/-- Witness for the C2 amended theorem at a concrete state. -/
theorem rag_snippets_length_cap_witness :
    (ragSnippetsOf defaultConfig (fun _ => []) (fun _ _ _ => rowsC2)
        (fun _ _ => true) (fun _ => 0) stateC2quiet).length
      ≤ defaultConfig.CONTEXT_TOP_K := by
  exact (rag_snippets_length_cap defaultConfig (fun _ => []) (fun _ _ _ => rowsC2)
    (fun _ _ => true) (fun _ => 0) stateC2quiet).2 (by decide) (by decide)

/-- C10: a blank (empty or whitespace-only) query short-circuits
`_hybrid_search_documents` to the pair `([], [])` before the embedding or
the vector store is consulted: the result is the same empty pair for
every embedding oracle, store oracle, profile and `top_k`. -/
theorem hybrid_search_blank_query {K : Type} [LinearOrderedField K]
    (embed embed' : String → List K)
    (store store' : List K → Option String → Nat → List (Row K))
    (profile profile' : Option Profile) (q : String) (k k' : Nat)
    (h : pyStrip q = "") :
    hybridSearchDocuments embed store q profile k = ([], [])
    ∧ hybridSearchDocuments embed store q profile k
      = hybridSearchDocuments embed' store' q profile' k' := by
  constructor <;> simp [hybridSearchDocuments, h]

/-- Witness for the C10 theorem on a whitespace-only query with two
different oracle pairs. -/
theorem hybrid_search_blank_query_witness :
    hybridSearchDocuments (fun _ => ([] : List ℚ)) (fun _ _ _ => []) " " none 8
      = ([], [])
    ∧ hybridSearchDocuments (fun _ => ([] : List ℚ)) (fun _ _ _ => []) " " none 8
      = hybridSearchDocuments (fun _ => [1]) (fun _ _ _ => rowsC2)
          " " (some ⟨some "서울특별시 동작구", none⟩) 3 :=
  hybrid_search_blank_query _ _ _ _ _ _ _ _ _ (by decide)

/-! ## Claim C3: score non-nullness -/

theorem mem_insertSorted {A : Type} (le : A → A → Bool) (x a : A)
    (l : List A) : a ∈ insertSorted le x l ↔ a = x ∨ a ∈ l := by
  induction l with
  | nil => simp [insertSorted]
  | cons y ys ih =>
    simp only [insertSorted]
    split
    next => simp only [List.mem_cons, ih]; tauto
    next => simp [List.mem_cons]

theorem mem_stableSort {A : Type} (le : A → A → Bool) (l : List A) (a : A) :
    a ∈ stableSort le l ↔ a ∈ l := by
  have h : ∀ acc : List A,
      a ∈ l.foldl (fun acc x => insertSorted le x acc) acc
        ↔ a ∈ acc ∨ a ∈ l := by
    induction l with
    | nil => intro acc; simp
    | cons x xs ih =>
      intro acc
      rw [List.foldl_cons, ih]
      simp only [mem_insertSorted, List.mem_cons]
      tauto
  simpa [stableSort] using h []

/-- Every snippet built by `_hybrid_search_documents` inherits its
initial `score` from the similarity of the row it was built from. -/
theorem mem_mkSnippets {K : Type} [LinearOrderedField K]
    (rows : List (Row K)) (s : Snippet K) (hs : s ∈ mkSnippets rows) :
    ∃ r ∈ rows, s.score = r.similarity := by
  simp only [mkSnippets] at hs
  obtain ⟨pr, hpr, rfl⟩ := List.mem_map.1 hs
  rw [mem_stableSort] at hpr
  obtain ⟨r, hr, rfl⟩ := List.mem_map.1 hpr
  exact ⟨r, hr, rfl⟩

/-- The floor stage only ever removes candidates. -/
theorem mem_applyFloorStage {K : Type} [LinearOrderedField K] (floor : K)
    (minAfter : Nat) (docs : List (Snippet K)) (d : Snippet K)
    (hd : d ∈ applyFloorStage floor minAfter docs) : d ∈ docs := by
  simp only [applyFloorStage] at hd
  split at hd
  next => exact hd
  next =>
    split at hd
    next => exact List.mem_of_mem_filter hd
    next => exact hd

/-- The BM25 rerank writes a (non-null) score into every candidate it
touches and otherwise returns the input list. -/
theorem score_isSome_applyBM25Rerank {K : Type} [LinearOrderedField K]
    (lg : K → K) (w : K) (docs : List (Snippet K)) (qts : List String)
    (h : ∀ d ∈ docs, (Snippet.score d).isSome) :
    ∀ d ∈ applyBM25Rerank lg w docs qts, (Snippet.score d).isSome := by
  intro d hd
  simp only [applyBM25Rerank] at hd
  split at hd
  next => exact h d hd
  next =>
    obtain ⟨p, hp, rfl⟩ := List.mem_map.1 hd
    rfl

/-- Sorting then truncating preserves "every score is non-null". -/
theorem score_isSome_sortTruncate {K : Type} [LinearOrderedField K]
    (topK : Nat) (l : List (Snippet K))
    (h : ∀ x ∈ l, (Snippet.score x).isSome) (d : Snippet K)
    (hd : d ∈ (if topK < (stableSort scoreSortLE l).length then
      (stableSort scoreSortLE l).take topK else stableSort scoreSortLE l)) :
    (Snippet.score d).isSome := by
  have hs : ∀ x ∈ stableSort scoreSortLE l, (Snippet.score x).isSome :=
    fun x hx => h x ((mem_stableSort _ _ _).1 hx)
  split at hd
  next => exact hs d (List.take_subset _ _ hd)
  next => exact hs d hd

/-- The floor / rerank / sort / truncate block preserves "every score is
non-null". -/
theorem score_isSome_rankAndTruncate {K : Type} [LinearOrderedField K]
    (cfg : RetrieverConfig K) (lg : K → K) (bm25Terms : List String)
    (docs : List (Snippet K)) (h : ∀ d ∈ docs, (Snippet.score d).isSome) :
    ∀ d ∈ rankAndTruncate cfg lg bm25Terms docs, (Snippet.score d).isSome := by
  intro d hd
  simp only [rankAndTruncate] at hd
  split at hd
  next => exact h d hd
  next =>
    have hfloor : ∀ x ∈ applyFloorStage cfg.SIMILARITY_FLOOR
        cfg.MIN_CANDIDATES_AFTER_FLOOR docs, (Snippet.score x).isSome :=
      fun x hx => h x (mem_applyFloorStage _ _ _ _ hx)
    split at hd
    next =>
      exact score_isSome_sortTruncate _ _ hfloor d hd
    next =>
      exact score_isSome_sortTruncate _ _
        (score_isSome_applyBM25Rerank _ _ _ _ hfloor) d hd

/-- Every snippet returned by `_hybrid_search_documents` has a non-null
score when every row the store returns has a non-null similarity. -/
theorem score_isSome_hybridSearch {K : Type} [LinearOrderedField K]
    (embed : String → List K)
    (store : List K → Option String → Nat → List (Row K)) (q : String)
    (profile : Option Profile) (topK : Nat)
    (hrows : ∀ qvec rf k, ∀ r ∈ store qvec rf k, (Row.similarity r).isSome) :
    ∀ s ∈ (hybridSearchDocuments embed store q profile topK).1,
      (Snippet.score s).isSome := by
  intro s hs
  simp only [hybridSearchDocuments] at hs
  split at hs
  next => simp at hs
  next =>
    obtain ⟨r, hr, heq⟩ := mem_mkSnippets _ _ hs
    rw [heq]
    exact hrows _ _ _ r hr

/-- The profile hard-filter stage only ever removes candidates. -/
theorem mem_profileFilterStage {K : Type}
    (eligible : Profile → Snippet K → Bool) (profile : Option Profile)
    (docs : List (Snippet K)) (x : Snippet K)
    (hx : x ∈ profileFilterStage eligible profile docs) : x ∈ docs := by
  cases profile with
  | none => exact hx
  | some p =>
    simp only [profileFilterStage] at hx
    split at hx
    next => exact hx
    next =>
      simp only [filterCandidatesByProfile] at hx
      exact List.mem_of_mem_filter hx

/-- C3 amended: when every row returned by the vector store carries a
non-null similarity, every candidate in the final `rag_snippets` list of
`policy_retriever_node` carries a non-null `score` (snippets start with
`score = similarity`, the BM25 rerank writes only non-null hybrid scores,
and the persist notice has score 1.0). The unconditional claim fails:
a row whose similarity column is NULL combined with an empty BM25 term
multiset reaches the output with `score = None`, see the
counterexample. -/
theorem rag_snippets_score_isSome {K : Type} [LinearOrderedField K]
    (cfg : RetrieverConfig K) (embed : String → List K)
    (store : List K → Option String → Nat → List (Row K))
    (eligible : Profile → Snippet K → Bool) (lg : K → K) (st : NodeState)
    (hrows : ∀ qvec rf k, ∀ r ∈ store qvec rf k, (Row.similarity r).isSome) :
    ∀ d ∈ ragSnippetsOf cfg embed store eligible lg st,
      (Snippet.score d).isSome := by
  intro d hd
  have h0 : ∀ x ∈ searchStage cfg embed store st, (Snippet.score x).isSome := by
    simp only [searchStage]
    split
    next => exact score_isSome_hybridSearch _ _ _ _ _ hrows
    next => simp
  have h1 : ∀ x ∈ profileFilterStage eligible st.merged_profile
      (searchStage cfg embed store st), (Snippet.score x).isSome :=
    fun x hx => h0 x (mem_profileFilterStage _ _ _ _ hx)
  simp only [ragSnippetsOf] at hd
  split at hd
  next =>
    rw [List.mem_append] at hd
    rcases hd with hd | hd
    · exact score_isSome_rankAndTruncate _ _ _ _ h1 d hd
    · rw [List.mem_singleton] at hd
      subst hd
      rfl
  next => exact score_isSome_rankAndTruncate _ _ _ _ h1 d hd

/-- A single row whose similarity column is NULL. -/
def rowC3 : List (Row ℚ) :=
  [⟨"1", some "정책 하나", none, none, none, none, none⟩]

/-- A state with RAG enabled, no profile, empty context layers, no
session end. -/
def stateC3 : NodeState :=
  { user_input := "무엇"
    router := some (some true)
    merged_profile := none
    profile_summary_text := none
    collection_L0 := none
    collection_L1 := none
    collection_L2 := none
    end_session := false }

/-- C3 counterexample: a vector-store row with NULL similarity and a run
with an empty BM25 term multiset produce a returned `rag_snippets` list
whose single candidate carries `score = None`. -/
theorem rag_snippets_score_counterexample :
    (ragSnippetsOf defaultConfig (fun _ => []) (fun _ _ _ => rowC3)
        (fun _ _ => true) (fun _ => 0) stateC3).map Snippet.score = [none]
    ∧ ¬ ∀ d ∈ ragSnippetsOf defaultConfig (fun _ => []) (fun _ _ _ => rowC3)
        (fun _ _ => true) (fun _ => 0) stateC3, (Snippet.score d).isSome := by
  exact ⟨by decide, by decide⟩

/-- Witness for the C3 amended theorem: the five-row store of `rowsC2`
has only non-null similarities, so every returned snippet has a non-null
score. -/
theorem rag_snippets_score_isSome_witness :
    (ragSnippetsOf defaultConfig (fun _ => []) (fun _ _ _ => rowsC2)
        (fun _ _ => true) (fun _ => 0) stateC2).all
      (fun d => (Snippet.score d).isSome) = true := by
  rw [List.all_eq_true]
  intro d hd
  refine rag_snippets_score_isSome defaultConfig (fun _ => []) (fun _ _ _ => rowsC2)
    (fun _ _ => true) (fun _ => 0) stateC2 ?_ d hd
  intro qvec rf k r hr
  fin_cases hr <;> rfl

/-! ## Claims C5–C7: the BM25 / hybrid scoring mathematics over ℝ -/

/-- `_apply_bm25_rerank` with `math.log` instantiated as the real
logarithm. -/
noncomputable def applyBM25RerankR (w : ℝ) (docs : List (Snippet ℝ))
    (qts : List String) : List (Snippet ℝ) :=
  applyBM25Rerank Real.log w docs qts

/-- The BM25 term contribution with `math.log` as the real logarithm. -/
noncomputable def bm25TermScoreR (N nqi dl : Nat) (avgdl : ℝ) (freq : Nat) : ℝ :=
  bm25TermScore Real.log N nqi dl avgdl freq

/-- The IDF factor is non-negative whenever `n_qi ≤ N`. -/
theorem bm25_idf_nonneg (N nqi : Nat) (hn : nqi ≤ N) :
    0 ≤ Real.log (((N : ℝ) - (nqi : ℝ) + 1 / 2) / ((nqi : ℝ) + 1 / 2) + 1) := by
  apply Real.log_nonneg
  have h1 : (0 : ℝ) ≤ ((N : ℝ) - (nqi : ℝ) + 1 / 2) / ((nqi : ℝ) + 1 / 2) := by
    apply div_nonneg
    · have : (nqi : ℝ) ≤ (N : ℝ) := Nat.cast_le.2 hn
      linarith
    · positivity
  linarith

/-- The saturation denominator is positive whenever `avgdl > 0`. -/
theorem bm25_denom_pos (dl : Nat) (avgdl : ℝ) (havg : 0 < avgdl) (freq : Nat) :
    0 < (freq : ℝ) + (3 / 2 : ℝ) * (1 - 3 / 4 + (3 / 4) * (dl : ℝ) / avgdl) := by
  have h1 : (0 : ℝ) ≤ (3 / 4) * (dl : ℝ) / avgdl := by positivity
  have h2 : (0 : ℝ) ≤ (freq : ℝ) := Nat.cast_nonneg _
  linarith

/-- A BM25 term contribution is non-negative when `n_qi ≤ N` and
`avgdl > 0`. -/
theorem bm25TermScoreR_nonneg (N nqi dl : Nat) (avgdl : ℝ) (freq : Nat)
    (havg : 0 < avgdl) (hn : nqi ≤ N) :
    0 ≤ bm25TermScoreR N nqi dl avgdl freq := by
  unfold bm25TermScoreR bm25TermScore
  have hidf := bm25_idf_nonneg N nqi hn
  have hden := bm25_denom_pos dl avgdl havg freq
  apply div_nonneg
  · apply mul_nonneg hidf
    positivity
  · linarith

/-- C7: with document-frequency statistic `0 ≤ n_qi ≤ N`, fixed document
length `dl > 0` and fixed positive `avgdl`, the BM25 term contribution
`idf * freq*(k1+1) / (freq + k1*(1-b+b*dl/avgdl))` is non-decreasing in
the term frequency; hence a document's total BM25 score — a sum of such
guarded contributions — is non-decreasing when each of its term
frequencies grows (second conjunct, for any list of per-term statistics
paired pointwise). -/
theorem bm25_term_score_monotone (N nqi dl : Nat) (avgdl : ℝ) (f1 f2 : Nat)
    (hdl : 0 < dl) (havg : 0 < avgdl) (hn : nqi ≤ N) (hf : f1 ≤ f2) :
    bm25TermScoreR N nqi dl avgdl f1 ≤ bm25TermScoreR N nqi dl avgdl f2
    ∧ ∀ stats1 stats2 : List (Nat × Nat),
        List.Forall₂ (fun p q : Nat × Nat => p.1 = q.1 ∧ p.1 ≤ N ∧ p.2 ≤ q.2)
          stats1 stats2 →
        ((stats1.map (fun p => if p.1 = 0 then 0 else if p.2 = 0 then 0
            else bm25TermScoreR N p.1 dl avgdl p.2)).sum : ℝ)
          ≤ (stats2.map (fun p => if p.1 = 0 then 0 else if p.2 = 0 then 0
            else bm25TermScoreR N p.1 dl avgdl p.2)).sum := by
  have hmono : ∀ (n : Nat), n ≤ N → ∀ g1 g2 : Nat, g1 ≤ g2 →
      bm25TermScoreR N n dl avgdl g1 ≤ bm25TermScoreR N n dl avgdl g2 := by
    intro n hnN g1 g2 hg
    unfold bm25TermScoreR bm25TermScore
    have hidf := bm25_idf_nonneg N n hnN
    have hd1 := bm25_denom_pos dl avgdl havg g1
    have hd2 := bm25_denom_pos dl avgdl havg g2
    have hg' : (g1 : ℝ) ≤ (g2 : ℝ) := Nat.cast_le.2 hg
    have key : ((g1 : ℝ) * (3 / 2 + 1)) / ((g1 : ℝ) + (3 / 2) * (1 - 3 / 4 + (3 / 4) * (dl : ℝ) / avgdl))
        ≤ ((g2 : ℝ) * (3 / 2 + 1)) / ((g2 : ℝ) + (3 / 2) * (1 - 3 / 4 + (3 / 4) * (dl : ℝ) / avgdl)) := by
      rw [div_le_div_iff₀ hd1 hd2]
      have h34 : (0 : ℝ) ≤ (3 / 4) * (dl : ℝ) / avgdl := by positivity
      nlinarith [(Nat.cast_nonneg g1 : (0:ℝ) ≤ g1), (Nat.cast_nonneg g2 : (0:ℝ) ≤ g2)]
    calc Real.log (((N : ℝ) - (n : ℝ) + 1 / 2) / ((n : ℝ) + 1 / 2) + 1)
          * ((g1 : ℝ) * (3 / 2 + 1))
          / ((g1 : ℝ) + (3 / 2) * (1 - 3 / 4 + (3 / 4) * (dl : ℝ) / avgdl))
        = Real.log (((N : ℝ) - (n : ℝ) + 1 / 2) / ((n : ℝ) + 1 / 2) + 1)
          * (((g1 : ℝ) * (3 / 2 + 1))
            / ((g1 : ℝ) + (3 / 2) * (1 - 3 / 4 + (3 / 4) * (dl : ℝ) / avgdl))) := by
          ring
      _ ≤ Real.log (((N : ℝ) - (n : ℝ) + 1 / 2) / ((n : ℝ) + 1 / 2) + 1)
          * (((g2 : ℝ) * (3 / 2 + 1))
            / ((g2 : ℝ) + (3 / 2) * (1 - 3 / 4 + (3 / 4) * (dl : ℝ) / avgdl))) :=
          mul_le_mul_of_nonneg_left key hidf
      _ = Real.log (((N : ℝ) - (n : ℝ) + 1 / 2) / ((n : ℝ) + 1 / 2) + 1)
          * ((g2 : ℝ) * (3 / 2 + 1))
          / ((g2 : ℝ) + (3 / 2) * (1 - 3 / 4 + (3 / 4) * (dl : ℝ) / avgdl)) := by
          ring
  refine ⟨hmono nqi hn f1 f2 hf, ?_⟩
  intro stats1 stats2 hforall
  induction hforall with
  | nil => simp
  | @cons p q l1 l2 hpq htail ih =>
    obtain ⟨heq, hle, hfreq⟩ := hpq
    simp only [List.map_cons, List.sum_cons]
    apply add_le_add _ ih
    rw [heq]
    by_cases h1 : q.1 = 0
    · simp [h1]
    · rw [if_neg h1, if_neg h1]
      by_cases h2 : p.2 = 0
      · rw [if_pos h2]
        split
        next => exact le_refl 0
        next => exact bm25TermScoreR_nonneg N q.1 dl avgdl q.2 havg (heq ▸ hle)
      · have hq2 : q.2 ≠ 0 := by omega
        rw [if_neg h2, if_neg hq2]
        exact hmono q.1 (heq ▸ hle) p.2 q.2 hfreq

/-- Witness for the C7 theorem at concrete statistics. -/
theorem bm25_term_score_monotone_witness :
    bm25TermScoreR 2 1 1 (1 : ℝ) 1 ≤ bm25TermScoreR 2 1 1 (1 : ℝ) 2
    ∧ ∀ stats1 stats2 : List (Nat × Nat),
        List.Forall₂ (fun p q : Nat × Nat => p.1 = q.1 ∧ p.1 ≤ 2 ∧ p.2 ≤ q.2)
          stats1 stats2 →
        ((stats1.map (fun p => if p.1 = 0 then 0 else if p.2 = 0 then 0
            else bm25TermScoreR 2 p.1 1 (1 : ℝ) p.2)).sum : ℝ)
          ≤ (stats2.map (fun p => if p.1 = 0 then 0 else if p.2 = 0 then 0
            else bm25TermScoreR 2 p.1 1 (1 : ℝ) p.2)).sum :=
  bm25_term_score_monotone 2 1 1 1 1 2 (by norm_num) (by norm_num)
    (by norm_num) (by norm_num)

/-- C6: under a non-empty query-term multiset, a candidate whose BM25
token list shares no term with the multiset receives `bm25_score = 0`,
and its fused score collapses to exactly
`(1 - BM25_WEIGHT) * similarity`. -/
theorem bm25_zero_overlap_score (w : ℝ) (docs : List (Snippet ℝ))
    (qts : List String) (i : Nat) (hi : i < docs.length) (hq : qts ≠ [])
    (hno : ∀ t ∈ qts, t ∉ docBM25Tokens docs[i]) (s : ℝ)
    (hs : (docs[i]).similarity = some s) :
    ∃ d', (applyBM25RerankR w docs qts)[i]? = some d'
      ∧ d'.bm25_score = some 0 ∧ d'.score = some ((1 - w) * s) := by
  have hd : docs.isEmpty = false := by
    cases docs with
    | nil => simp at hi
    | cons a l => rfl
  have hqe : qts.isEmpty = false := by
    cases qts with
    | nil => exact absurd rfl hq
    | cons a l => rfl
  have htok : (docs.map docBM25Tokens)[i]? = some (docBM25Tokens docs[i]) := by
    simp [List.getElem?_eq_getElem hi]
  have hlen : ((docs.map docBM25Tokens).map docLenOf)[i]?
      = some (docLenOf (docBM25Tokens docs[i])) := by
    simp [List.getElem?_eq_getElem hi]
  have hscore_zero : ∀ (df : String → Nat) (dl : Nat) (avgdl : ℝ),
      bm25DocScore Real.log docs.length df qts
        (docBM25Tokens docs[i]) dl avgdl = 0 := by
    intro df dl avgdl
    unfold bm25DocScore
    apply List.sum_eq_zero
    intro x hx
    obtain ⟨t, ht, rfl⟩ := List.mem_map.1 hx
    have hcount : (docBM25Tokens docs[i]).count t = 0 :=
      List.count_eq_zero.2 (hno t ht)
    simp [hcount]
  unfold applyBM25RerankR applyBM25Rerank
  rw [hd, hqe]
  simp only [Bool.or_self, Bool.false_eq_true, if_false]
  have hzip1 : ((docs.map docBM25Tokens).zip
      ((docs.map docBM25Tokens).map docLenOf))[i]?
      = some (docBM25Tokens docs[i], docLenOf (docBM25Tokens docs[i])) :=
    List.getElem?_zip_eq_some.mpr ⟨htok, hlen⟩
  have hbmIdx : (bm25ScoresList Real.log docs qts)[i]? = some 0 := by
    unfold bm25ScoresList
    rw [List.getElem?_map, hzip1]
    simp [hscore_zero]
  have hzip2 : (docs.zip (bm25ScoresList Real.log docs qts))[i]?
      = some (docs[i], 0) :=
    List.getElem?_zip_eq_some.mpr
      ⟨by simp [List.getElem?_eq_getElem hi], hbmIdx⟩
  rw [List.getElem?_map, hzip2]
  refine ⟨_, rfl, rfl, ?_⟩
  simp [hs]

/-- Every element of a non-empty fold of `max` is bounded by the fold. -/
theorem le_foldl_max {K : Type} [LinearOrderedField K] :
    ∀ (as : List K) (b : K),
      b ≤ as.foldl max b ∧ ∀ x ∈ as, x ≤ as.foldl max b
  | [], b => ⟨le_refl _, by simp⟩
  | a :: as, b => by
    obtain ⟨h1, h2⟩ := le_foldl_max as (max b a)
    refine ⟨le_trans (le_max_left _ _) h1, ?_⟩
    intro x hx
    rcases List.mem_cons.1 hx with rfl | hx
    · exact le_trans (le_max_right b x) h1
    · exact h2 x hx

/-- `max(bm25_scores)` dominates every score in the list. -/
theorem le_maxBM25 {K : Type} [LinearOrderedField K] (l : List K) (x : K)
    (hx : x ∈ l) : x ≤ maxBM25 l := by
  cases l with
  | nil => simp at hx
  | cons a as =>
    rcases List.mem_cons.1 hx with rfl | hx
    · exact (le_foldl_max as x).1
    · exact (le_foldl_max as a).2 x hx

/-- C5 amended: every fused score `_apply_bm25_rerank` writes equals
`(1 - w) * similarity + w * bm25Norm`, where `bm25Norm` is the raw BM25
total divided by the maximum total when that maximum is positive and `0`
otherwise; the fused score is at most 1 whenever all similarities lie in
`[0, 1]` and `w ∈ [0, 1]`, and additionally at least 0 when every raw
BM25 total is non-negative. The unconditional lower bound of the claim
fails on the code because a repeated query term inflates `n_qi` beyond
`N`, turning the IDF negative (see the counterexample). -/
theorem hybrid_score_formula_bounds (w : ℝ) (docs : List (Snippet ℝ))
    (qts : List String) (hd : docs ≠ []) (hq : qts ≠ [])
    (hw0 : 0 ≤ w) (hw1 : w ≤ 1)
    (hsim : ∀ d ∈ docs, 0 ≤ (Snippet.similarity d).getD 0
      ∧ (Snippet.similarity d).getD 0 ≤ 1) :
    ∀ d' ∈ applyBM25RerankR w docs qts,
      ∃ b, Snippet.bm25_score d' = some b
        ∧ b ∈ bm25ScoresList Real.log docs qts
        ∧ Snippet.score d' = some ((1 - w) * ((Snippet.similarity d').getD 0)
            + w * (if 0 < maxBM25 (bm25ScoresList Real.log docs qts)
                then b / maxBM25 (bm25ScoresList Real.log docs qts) else 0))
        ∧ (Snippet.score d').getD 0 ≤ 1
        ∧ ((∀ r ∈ bm25ScoresList Real.log docs qts, 0 ≤ r)
            → 0 ≤ (Snippet.score d').getD 0) := by
  have hdb : docs.isEmpty = false := by
    cases docs with
    | nil => exact absurd rfl hd
    | cons a l => rfl
  have hqb : qts.isEmpty = false := by
    cases qts with
    | nil => exact absurd rfl hq
    | cons a l => rfl
  intro d' hd'
  unfold applyBM25RerankR applyBM25Rerank at hd'
  rw [hdb, hqb] at hd'
  simp only [Bool.or_self, Bool.false_eq_true, if_false] at hd'
  obtain ⟨p, hp, rfl⟩ := List.mem_map.1 hd'
  obtain ⟨hp1, hp2⟩ := List.of_mem_zip hp
  set maxB := maxBM25 (bm25ScoresList Real.log docs qts) with hmaxB
  set nrm : ℝ := if 0 < maxB then p.2 / maxB else 0 with hnrm
  have hnorm1 : nrm ≤ 1 := by
    rw [hnrm]
    split
    next hpos => exact div_le_one_of_le₀ (le_maxBM25 _ _ hp2) (le_of_lt hpos)
    next => norm_num
  obtain ⟨hs0, hs1⟩ := hsim p.1 hp1
  refine ⟨p.2, rfl, hp2, rfl, ?_, ?_⟩
  · show (1 - w) * (p.1.similarity.getD 0) + w * nrm ≤ 1
    nlinarith
  · intro hall
    have hnorm0 : 0 ≤ nrm := by
      rw [hnrm]
      split
      next hpos => exact div_nonneg (hall _ hp2) (le_of_lt hpos)
      next => norm_num
    show 0 ≤ (1 - w) * (p.1.similarity.getD 0) + w * nrm
    have := mul_nonneg (by linarith : (0:ℝ) ≤ 1 - w) hs0
    have := mul_nonneg hw0 hnorm0
    linarith

/-- A single candidate whose only token is `하나`, similarity 1/2. -/
noncomputable def bmDocHana : Snippet ℝ :=
  { doc_id := "H", title := some "하나", source := some "policy_db",
    snippet := "", similarity := some (1/2), score := some (1/2),
    region := none, url := none, requirements := none, benefits := none,
    bm25_score := none }

/-- Witness for the C5 amended theorem on a one-candidate corpus. -/
theorem hybrid_score_formula_bounds_witness :
    (applyBM25RerankR (1/5) [bmDocHana] ["하나"]).length = 1
    ∧ ∀ d' ∈ applyBM25RerankR (1/5) [bmDocHana] ["하나"],
      ∃ b, Snippet.bm25_score d' = some b
        ∧ b ∈ bm25ScoresList Real.log [bmDocHana] ["하나"]
        ∧ Snippet.score d' = some ((1 - 1/5) * ((Snippet.similarity d').getD 0)
            + (1/5) * (if 0 < maxBM25 (bm25ScoresList Real.log [bmDocHana] ["하나"])
                then b / maxBM25 (bm25ScoresList Real.log [bmDocHana] ["하나"])
                else 0))
        ∧ (Snippet.score d').getD 0 ≤ 1
        ∧ ((∀ r ∈ bm25ScoresList Real.log [bmDocHana] ["하나"], 0 ≤ r)
            → 0 ≤ (Snippet.score d').getD 0) :=
  ⟨by simp [applyBM25RerankR, applyBM25Rerank, bm25ScoresList],
   hybrid_score_formula_bounds (1/5) [bmDocHana] ["하나"] (by simp) (by simp)
     (by norm_num) (by norm_num)
     (by intro d hdm; fin_cases hdm; constructor <;> norm_num [bmDocHana])⟩

/-- Witness for the C6 theorem: the query term `둘` does not occur in the
candidate, so its BM25 score is 0 and its fused score is
`(1 - 1/5) * (1/2)`. -/
theorem bm25_zero_overlap_score_witness :
    ∃ d', (applyBM25RerankR (1/5) [bmDocHana] ["둘"])[0]? = some d'
      ∧ Snippet.bm25_score d' = some 0
      ∧ Snippet.score d' = some ((1 - 1/5) * (1/2)) :=
  bm25_zero_overlap_score (1/5) [bmDocHana] ["둘"] 0 (by norm_num) (by simp)
    (by intro t ht; fin_cases ht; decide) (1/2) rfl

/-- Candidate A of the C5 counterexample: token `하나`, similarity 1. -/
noncomputable def bmDocA : Snippet ℝ :=
  { doc_id := "A", title := some "하나", source := some "policy_db",
    snippet := "", similarity := some 1, score := some 1,
    region := none, url := none, requirements := none, benefits := none,
    bm25_score := none }

/-- Candidate B of the C5 counterexample: token `둘`, similarity 0. -/
noncomputable def bmDocB : Snippet ℝ :=
  { doc_id := "B", title := some "둘", source := some "policy_db",
    snippet := "", similarity := some 0, score := some 0,
    region := none, url := none, requirements := none, benefits := none,
    bm25_score := none }

/-- The query-term multiset of the C5 counterexample, produced by the
layer builder: one L0 triple `둘` (weight 3) and one L2 triple `하나`
(weight 1) give the multiset `["둘", "둘", "둘", "하나"]`. -/
def bmCexTerms : List String :=
  buildBM25Terms (some [⟨"둘", ""⟩]) none (some [⟨"하나", ""⟩])

example : bmCexTerms = ["둘", "둘", "둘", "하나"] := by decide

/-- The raw BM25 totals of the counterexample corpus: document A scores
`log 2 > 0`; document B scores `3 * log (6/7) < 0` because its term `둘`
has query multiplicity 3, making `n_qi = 3 > N = 2` and the IDF
negative. -/
theorem bmCex_scores : bm25ScoresList Real.log [bmDocA, bmDocB] bmCexTerms
    = [Real.log 2, 3 * Real.log (6/7)] := by
  have h1 : docBM25Tokens bmDocA = ["하나"] := rfl
  have h2 : docBM25Tokens bmDocB = ["둘"] := rfl
  have h3 : bmCexTerms = ["둘", "둘", "둘", "하나"] := rfl
  have h4 : termDocFreq ["둘", "둘", "둘", "하나"] [["하나"], ["둘"]] "둘" = 3 := rfl
  have h5 : termDocFreq ["둘", "둘", "둘", "하나"] [["하나"], ["둘"]] "하나" = 1 := rfl
  have h6 : (["하나"] : List String).count "둘" = 0 := rfl
  have h7 : (["하나"] : List String).count "하나" = 1 := rfl
  have h8 : (["둘"] : List String).count "둘" = 1 := rfl
  have h9 : (["둘"] : List String).count "하나" = 0 := rfl
  simp only [bm25ScoresList, h3, List.map_cons, List.map_nil, h1, h2,
    List.zip_cons_cons, List.zip_nil_right, docLenOf, List.length_cons,
    List.length_nil, bm25DocScore, h4, h5, h6, h7, h8, h9,
    List.sum_cons, List.sum_nil]
  norm_num [bm25TermScore]
  ring

/-- C5 counterexample: on a two-candidate corpus with similarities 1 and
0 (both in `[0,1]`) and weight `1/5 ∈ [0,1]`, the re-ranked list contains
a candidate with a negative fused score, refuting `score ∈ [0,1]` as
stated. -/
theorem hybrid_score_counterexample :
    (∀ d ∈ ([bmDocA, bmDocB] : List (Snippet ℝ)),
        0 ≤ (Snippet.similarity d).getD 0 ∧ (Snippet.similarity d).getD 0 ≤ 1)
    ∧ ((0:ℝ) ≤ 1/5 ∧ (1/5 : ℝ) ≤ 1)
    ∧ ∃ d ∈ applyBM25RerankR (1/5) [bmDocA, bmDocB] bmCexTerms,
        ∃ v, Snippet.score d = some v ∧ v < 0 := by
  have hlog2 : (0:ℝ) < Real.log 2 := Real.log_pos (by norm_num)
  have hlog67 : Real.log (6/7) < 0 := Real.log_neg (by norm_num) (by norm_num)
  have hmax : maxBM25 (bm25ScoresList Real.log [bmDocA, bmDocB] bmCexTerms)
      = Real.log 2 := by
    rw [bmCex_scores]
    show max (Real.log 2) (3 * Real.log (6/7)) = Real.log 2
    exact max_eq_left (by nlinarith)
  have hdocs1 : (([bmDocA, bmDocB] : List (Snippet ℝ)))[1]? = some bmDocB := rfl
  have hsc1 : (bm25ScoresList Real.log [bmDocA, bmDocB] bmCexTerms)[1]?
      = some (3 * Real.log (6/7)) := by
    rw [bmCex_scores]
    rfl
  have hzip : (([bmDocA, bmDocB] : List (Snippet ℝ)).zip
      (bm25ScoresList Real.log [bmDocA, bmDocB] bmCexTerms))[1]?
      = some (bmDocB, 3 * Real.log (6/7)) :=
    List.getElem?_zip_eq_some.mpr ⟨hdocs1, hsc1⟩
  refine ⟨?_, ⟨by norm_num, by norm_num⟩, ?_⟩
  · intro d hdm
    fin_cases hdm <;> constructor <;> norm_num [bmDocA, bmDocB]
  · unfold applyBM25RerankR applyBM25Rerank
    rw [show (([bmDocA, bmDocB] : List (Snippet ℝ)).isEmpty
        || bmCexTerms.isEmpty) = false from rfl]
    simp only [Bool.false_eq_true, if_false]
    refine ⟨_, List.getElem?_mem (by rw [List.getElem?_map, hzip]; rfl), ?_⟩
    refine ⟨_, rfl, ?_⟩
    rw [hmax, if_pos hlog2]
    have hdivneg : (3 * Real.log (6/7)) / Real.log 2 < 0 :=
      div_neg_of_neg_of_pos (by linarith) hlog2
    have hsimB : (Snippet.similarity bmDocB).getD 0 = 0 := rfl
    rw [hsimB]
    nlinarith

end PolicyRetriever
